import Mathlib

/-!
# Gateway module-lifecycle manager and message bus: a shallow embedding

Embedding of the public contract of `src/core/inc/gateway_ll.h` together with
the behaviour of its implementation.  The implementation sources
(`gateway_ll.c`, the message bus, the module host) are not shipped under
`src/`; only the public header is.  The operational definitions below are
therefore modelled from the specification of that implementation and each such
definition says so in its doc comment.
-/

/-- Mirror of `GATEWAY_PROPERTIES_ENTRY` (gateway_ll.h, lines 30-40): the
possibly-NULL module name, the path to the .dll/.so of the module, and the
user-defined configuration object (modelled as an opaque numeric token). -/
structure GATEWAY_PROPERTIES_ENTRY where
  module_name : Option String
  module_path : String
  module_configuration : Nat
  deriving DecidableEq

/-- Mirror of `GATEWAY_PROPERTIES` (gateway_ll.h, lines 46-50): the vector of
`GATEWAY_PROPERTIES_ENTRY` objects, modelled as an insertion-ordered list. -/
structure GATEWAY_PROPERTIES where
  gateway_properties_entries : List GATEWAY_PROPERTIES_ENTRY
  deriving DecidableEq

/-- Mirror of `GATEWAY_EVENT` (gateway_ll.h, lines 53-59).  The sentinel
`GATEWAY_EVENTS_COUNT` is documented as "not an actual event" and is not part
of the carrier. -/
inductive GATEWAY_EVENT where
  | GATEWAY_CREATED
  | GATEWAY_DESTROYED
  deriving DecidableEq

/-- Mirror of `MODULE_HANDLE` (module.h, not under src/).  Modelled from the
spec: a live Module Instance (§3) with a fresh identity per allocation and the
properties entry it was built from.  The loaded-library reference and the
opaque module state are identified through the entry's path and id. -/
structure MODULE_HANDLE where
  moduleId : Nat
  entry : GATEWAY_PROPERTIES_ENTRY
  deriving DecidableEq

/-- Modelled from the spec: the shared-library loader and the module's own
`create` entry point (§4.1, §6) are external collaborators consumed as black
boxes.  `loadOk` says whether the shared object at the entry's path loads and
its symbols resolve; `initOk` says whether the module's `create` returns a
non-null state. -/
structure LoaderEnv where
  loadOk : GATEWAY_PROPERTIES_ENTRY → Bool
  initOk : GATEWAY_PROPERTIES_ENTRY → Bool

/-- Modelled from the spec: the observable cross-boundary resource state the
gateway manages (§3, §5): which shared libraries are currently loaded (by
path), which module instances hold an active bus subscription, and the next
fresh module-instance identity. -/
structure ResourceState where
  loadedLibs : List String
  activeSubs : List MODULE_HANDLE
  nextId : Nat
  deriving DecidableEq

/-- Modelled from the spec: a (event kind, callback) registration (§3 Event
Registration); callbacks are identified by numeric tokens. -/
abbrev EventRegistration := GATEWAY_EVENT × Nat

/-- Modelled from the spec: one synchronous invocation of a registered
`GATEWAY_CALLBACK` (gateway_ll.h line 65): the callback token, the event kind
it is fired for, and the `GATEWAY_EVENT_CTX` context argument (gateway_ll.h
line 62: "Right now NULL will be passed"; NULL is `none`). -/
structure CallbackInvocation where
  callback : Nat
  event : GATEWAY_EVENT
  context : Option Nat
  deriving DecidableEq

/-- Mirror of `GATEWAY_HANDLE_DATA` (gateway_ll.h line 27, layout modelled
from the spec §3 Gateway): the ordered collection of module instances
(insertion order preserved) and the Event Notifier's callback table.  The
owned message bus is represented by the live-subscription component of the
`ResourceState` threaded alongside. -/
structure GATEWAY_HANDLE where
  modules : List MODULE_HANDLE
  callbacks : List EventRegistration
  deriving DecidableEq

/-- Modelled from the spec: the per-entry load-and-initialize step (§4.1,
§4.4 step 2).  Resolve the module interface from the shared object at the
entry's path; on load success call the module's own `create`.  A load failure
touches nothing; an init failure unloads the just-loaded library again, so the
resource state is unchanged on either failure.  On success the library stays
loaded and a fresh module instance is returned. -/
def tryLoadEntry (env : LoaderEnv) (e : GATEWAY_PROPERTIES_ENTRY)
    (st : ResourceState) : Option MODULE_HANDLE × ResourceState :=
  if env.loadOk e then
    if env.initOk e then
      (some ⟨st.nextId, e⟩,
       { st with loadedLibs := st.loadedLibs ++ [e.module_path],
                 nextId := st.nextId + 1 })
    else
      (none, st)
  else
    (none, st)

/-- Modelled from the spec: unloading one module's shared library (§3:
destruction ends by unloading the library; §6: `unload(handle)`). -/
def unloadLib (m : MODULE_HANDLE) (st : ResourceState) : ResourceState :=
  { st with loadedLibs := st.loadedLibs.erase m.entry.module_path }

/-- Modelled from the spec: unwinding a list of partially built modules, first
element first — callers pass the built modules reversed, so everything built
so far is unwound in reverse build order (§4.4 step 2). -/
def unwindAll : List MODULE_HANDLE → ResourceState → ResourceState
  | [], st => st
  | m :: rest, st => unwindAll rest (unloadLib m st)

/-- Modelled from the spec: §4.4 `create` step 2 — for each properties entry
in order, resolve and create the module; on the first failure unwind
everything built so far in reverse order and fail overall. -/
def loadAll (env : LoaderEnv) :
    List GATEWAY_PROPERTIES_ENTRY → List MODULE_HANDLE → ResourceState →
    Option (List MODULE_HANDLE) × ResourceState
  | [], acc, st => (some acc, st)
  | e :: rest, acc, st =>
    match tryLoadEntry env e st with
    | (some m, st1) => loadAll env rest (acc ++ [m]) st1
    | (none, _) => (none, unwindAll acc.reverse st)

/-- Modelled from the spec: the callbacks registered for a given event kind,
in registration order (§3 Event Registration, §4.5). -/
def registeredFor : List EventRegistration → GATEWAY_EVENT → List Nat
  | [], _ => []
  | r :: rest, ev => (if r.1 = ev then [r.2] else []) ++ registeredFor rest ev

/-- Modelled from the spec: firing a gateway event (§4.5): every callback
registered for that kind is invoked synchronously within the triggering
operation, in registration order, with NULL (`none`) as the
`GATEWAY_EVENT_CTX` context (gateway_ll.h line 62). -/
def fireEvent : List EventRegistration → GATEWAY_EVENT → List CallbackInvocation
  | [], _ => []
  | r :: rest, ev =>
      (if r.1 = ev then [⟨r.2, ev, none⟩] else []) ++ fireEvent rest ev

/-- Mirror of `Gateway_AddEventCallback` (gateway_ll.h line 108); modelled
from the spec §4.5: appends to the registration list for that kind; no removal
operation exists. -/
def Gateway_AddEventCallback (regs : List EventRegistration)
    (event_type : GATEWAY_EVENT) (callback : Nat) : List EventRegistration :=
  regs ++ [(event_type, callback)]

/-- Mirror of `Gateway_LL_Create` (gateway_ll.h line 75); behaviour modelled
from the spec §4.4: instantiate the bus, load every properties entry in order
(on any failure unwind in reverse order and return NULL overall — a partial
gateway is never returned), subscribe each created module instance to the
bus, then fire `GATEWAY_CREATED` synchronously to the registered callbacks in
registration order before returning.  The result carries the returned handle
(or `none`), the final resource state, and the callback invocations performed
inside the call. -/
def Gateway_LL_Create (env : LoaderEnv) (regs : List EventRegistration)
    (properties : GATEWAY_PROPERTIES) :
    Option GATEWAY_HANDLE × ResourceState × List CallbackInvocation :=
  match loadAll env properties.gateway_properties_entries []
      { loadedLibs := [], activeSubs := [], nextId := 0 } with
  | (some mods, st1) =>
      (some { modules := mods, callbacks := regs },
       { st1 with activeSubs := st1.activeSubs ++ mods },
       fireEvent regs .GATEWAY_CREATED)
  | (none, st1) => (none, st1, [])

lemma tryLoadEntry_ok (env : LoaderEnv) (e : GATEWAY_PROPERTIES_ENTRY)
    (st : ResourceState) (h1 : env.loadOk e = true) (h2 : env.initOk e = true) :
    tryLoadEntry env e st =
      (some ⟨st.nextId, e⟩,
       { st with loadedLibs := st.loadedLibs ++ [e.module_path],
                 nextId := st.nextId + 1 }) := by
  simp [tryLoadEntry, h1, h2]

lemma tryLoadEntry_fail (env : LoaderEnv) (e : GATEWAY_PROPERTIES_ENTRY)
    (st : ResourceState) (h : ¬(env.loadOk e = true ∧ env.initOk e = true)) :
    tryLoadEntry env e st = (none, st) := by
  unfold tryLoadEntry
  by_cases h1 : env.loadOk e = true
  · by_cases h2 : env.initOk e = true
    · exact absurd ⟨h1, h2⟩ h
    · simp [h1, h2]
  · simp [h1]

lemma loadAll_ok (env : LoaderEnv) (entries : List GATEWAY_PROPERTIES_ENTRY) :
    ∀ (acc : List MODULE_HANDLE) (st : ResourceState),
      (∀ e ∈ entries, env.loadOk e = true ∧ env.initOk e = true) →
      ∃ mods st', loadAll env entries acc st = (some (acc ++ mods), st') ∧
        mods.map MODULE_HANDLE.entry = entries := by
  induction entries with
  | nil =>
      intro acc st _
      exact ⟨[], st, by simp [loadAll], rfl⟩
  | cons e rest ih =>
      intro acc st h
      obtain ⟨h1, h2⟩ := h e (List.mem_cons_self _ _)
      obtain ⟨mods, st', heq, hmap⟩ :=
        ih (acc ++ [⟨st.nextId, e⟩])
          { st with loadedLibs := st.loadedLibs ++ [e.module_path],
                    nextId := st.nextId + 1 }
          (fun x hx => h x (List.mem_cons_of_mem _ hx))
      refine ⟨⟨st.nextId, e⟩ :: mods, st', ?_, ?_⟩
      · rw [loadAll, tryLoadEntry_ok env e st h1 h2]
        simpa using heq
      · simp [hmap]

/-- Unwinding never touches the bus subscriptions: only module destruction and
library unloading happen there. -/
lemma unwindAll_activeSubs :
    ∀ (l : List MODULE_HANDLE) (st : ResourceState),
      (unwindAll l st).activeSubs = st.activeSubs := by
  intro l
  induction l with
  | nil => intro st; rfl
  | cons m rest ih => intro st; simp [unwindAll, ih, unloadLib]

/-- Unwinding never allocates: the fresh-id counter is unchanged. -/
lemma unwindAll_nextId :
    ∀ (l : List MODULE_HANDLE) (st : ResourceState),
      (unwindAll l st).nextId = st.nextId := by
  intro l
  induction l with
  | nil => intro st; rfl
  | cons m rest ih => intro st; simp [unwindAll, ih, unloadLib]

/-- Unwinding a set of modules whose library paths are exactly (as a multiset)
the loaded libraries unloads every one of them. -/
lemma unwindAll_loadedLibs :
    ∀ (l : List MODULE_HANDLE) (st : ResourceState),
      st.loadedLibs.Perm (l.map (fun m => m.entry.module_path)) →
      (unwindAll l st).loadedLibs = [] := by
  intro l
  induction l with
  | nil =>
      intro st hperm
      simpa [unwindAll] using hperm.eq_nil
  | cons m rest ih =>
      intro st hperm
      have hmem : m.entry.module_path ∈ st.loadedLibs :=
        hperm.symm.subset (List.mem_cons_self _ _)
      have herase : (st.loadedLibs.erase m.entry.module_path).Perm
          (rest.map (fun k => k.entry.module_path)) := by
        have := (List.cons_perm_iff_perm_erase.mp hperm.symm).2
        exact this.symm
      exact ih (unloadLib m st) herase

lemma loadAll_fail (env : LoaderEnv) (entries : List GATEWAY_PROPERTIES_ENTRY) :
    ∀ (acc : List MODULE_HANDLE) (st : ResourceState),
      st.loadedLibs = acc.map (fun m => m.entry.module_path) →
      (∃ e ∈ entries, ¬(env.loadOk e = true ∧ env.initOk e = true)) →
      ∃ st', loadAll env entries acc st = (none, st') ∧
        st'.loadedLibs = [] ∧ st'.activeSubs = st.activeSubs := by
  induction entries with
  | nil =>
      intro acc st _ hbad
      obtain ⟨e, he, _⟩ := hbad
      exact absurd he (List.not_mem_nil e)
  | cons e rest ih =>
      intro acc st hlibs hbad
      by_cases hok : env.loadOk e = true ∧ env.initOk e = true
      · have hrest : ∃ x ∈ rest, ¬(env.loadOk x = true ∧ env.initOk x = true) := by
          obtain ⟨x, hx, hxbad⟩ := hbad
          rcases List.mem_cons.mp hx with hhead | htail
          · exact absurd hok (hhead ▸ hxbad)
          · exact ⟨x, htail, hxbad⟩
        obtain ⟨st', heq, hfin, hsubs⟩ :=
          ih (acc ++ [⟨st.nextId, e⟩])
            { st with loadedLibs := st.loadedLibs ++ [e.module_path],
                      nextId := st.nextId + 1 }
            (by simp [hlibs]) hrest
        refine ⟨st', ?_, hfin, hsubs⟩
        rw [loadAll, tryLoadEntry_ok env e st hok.1 hok.2]
        exact heq
      · refine ⟨unwindAll acc.reverse st, ?_, ?_, unwindAll_activeSubs _ _⟩
        · rw [loadAll, tryLoadEntry_fail env e st hok]
        · apply unwindAll_loadedLibs
          rw [hlibs]
          exact ((List.reverse_perm acc).map _).symm

/-- C1: For every non-empty properties list in which every entry loads and
initializes successfully, `Gateway_LL_Create` returns a non-NULL gateway
handle whose ordered module collection has exactly the same length as the
input entry list and preserves the entries' order. -/
theorem gateway_create_preserves_entries (env : LoaderEnv)
    (regs : List EventRegistration) (properties : GATEWAY_PROPERTIES)
    (hne : properties.gateway_properties_entries ≠ [])
    (hok : ∀ e ∈ properties.gateway_properties_entries,
      env.loadOk e = true ∧ env.initOk e = true) :
    ∃ gw st tr, Gateway_LL_Create env regs properties = (some gw, st, tr) ∧
      gw.modules.map MODULE_HANDLE.entry = properties.gateway_properties_entries ∧
      gw.modules.length = properties.gateway_properties_entries.length := by
  obtain ⟨mods, st', heq, hmap⟩ :=
    loadAll_ok env properties.gateway_properties_entries []
      { loadedLibs := [], activeSubs := [], nextId := 0 } hok
  refine ⟨{ modules := mods, callbacks := regs },
    { st' with activeSubs := st'.activeSubs ++ mods },
    fireEvent regs .GATEWAY_CREATED, ?_, hmap, ?_⟩
  · unfold Gateway_LL_Create
    rw [show ([] : List MODULE_HANDLE) ++ mods = mods from rfl] at heq
    rw [heq]
  · rw [← hmap, List.length_map]

/-- C1 witness: a concrete two-entry properties list where everything loads
and initializes, instantiating the theorem. -/
theorem gateway_create_preserves_entries_witness :
    ∃ gw st tr,
      Gateway_LL_Create ⟨fun _ => true, fun _ => true⟩ []
        ⟨[⟨some "A", "libA.so", 0⟩, ⟨some "B", "libB.so", 1⟩]⟩ =
        (some gw, st, tr) ∧
      gw.modules.map MODULE_HANDLE.entry =
        [⟨some "A", "libA.so", 0⟩, ⟨some "B", "libB.so", 1⟩] ∧
      gw.modules.length = 2 :=
  gateway_create_preserves_entries ⟨fun _ => true, fun _ => true⟩ []
    ⟨[⟨some "A", "libA.so", 0⟩, ⟨some "B", "libB.so", 1⟩]⟩
    (by decide) (by decide)

/-- C2: For every properties list in which some entry fails to load or
initialize, `Gateway_LL_Create` returns NULL with no partial side effects: no
library loaded for the earlier entries remains loaded, no bus subscription
remains active, and no partially built gateway is returned. -/
theorem gateway_create_failure_cleanup (env : LoaderEnv)
    (regs : List EventRegistration) (properties : GATEWAY_PROPERTIES)
    (hbad : ∃ e ∈ properties.gateway_properties_entries,
      ¬(env.loadOk e = true ∧ env.initOk e = true)) :
    ∃ st, Gateway_LL_Create env regs properties = (none, st, []) ∧
      st.loadedLibs = [] ∧ st.activeSubs = [] := by
  obtain ⟨st', heq, hlibs, hsubs⟩ :=
    loadAll_fail env properties.gateway_properties_entries []
      { loadedLibs := [], activeSubs := [], nextId := 0 } rfl hbad
  refine ⟨st', ?_, hlibs, hsubs⟩
  unfold Gateway_LL_Create
  rw [heq]

/-- C2 witness: a concrete properties list whose second entry fails to load,
instantiating the theorem. -/
theorem gateway_create_failure_cleanup_witness :
    ∃ st,
      Gateway_LL_Create ⟨fun e => e.module_path == "libA.so", fun _ => true⟩ []
        ⟨[⟨some "A", "libA.so", 0⟩, ⟨some "B", "libBad.so", 1⟩]⟩ =
        (none, st, []) ∧
      st.loadedLibs = [] ∧ st.activeSubs = [] :=
  gateway_create_failure_cleanup
    ⟨fun e => e.module_path == "libA.so", fun _ => true⟩ []
    ⟨[⟨some "A", "libA.so", 0⟩, ⟨some "B", "libBad.so", 1⟩]⟩
    ⟨⟨some "B", "libBad.so", 1⟩, by decide, by decide⟩

/-- Mirror of `Gateway_LL_AddModule` (gateway_ll.h line 92); behaviour
modelled from the spec §4.4: the same per-entry steps as create — resolve and
create the module from the entry, and on success subscribe the new instance to
the bus, invoke its `start`, and append it to the ordered module collection.
On failure the gateway's existing modules and the resource state are left
untouched and NULL is returned. -/
def Gateway_LL_AddModule (env : LoaderEnv) (gw : GATEWAY_HANDLE)
    (st : ResourceState) (entry : GATEWAY_PROPERTIES_ENTRY) :
    Option MODULE_HANDLE × GATEWAY_HANDLE × ResourceState :=
  match tryLoadEntry env entry st with
  | (some m, st1) =>
      (some m, { gw with modules := gw.modules ++ [m] },
       { st1 with activeSubs := st1.activeSubs ++ [m] })
  | (none, st1) => (none, gw, st1)

/-- C6: a failing `Gateway_LL_AddModule` call returns NULL and leaves the
gateway's existing ordered module collection unchanged, while a successful
call appends exactly one new module instance to the end of that collection.
The freshness hypothesis says the gateway's instances were all allocated
before the current counter, which every run of the model maintains. -/
theorem gateway_addModule_frame (env : LoaderEnv) (gw : GATEWAY_HANDLE)
    (st : ResourceState) (entry : GATEWAY_PROPERTIES_ENTRY)
    (hfresh : ∀ k ∈ gw.modules, k.moduleId < st.nextId) :
    ((Gateway_LL_AddModule env gw st entry).1 = none →
      (Gateway_LL_AddModule env gw st entry).2.1 = gw) ∧
    (∀ m, (Gateway_LL_AddModule env gw st entry).1 = some m →
      (Gateway_LL_AddModule env gw st entry).2.1.modules = gw.modules ++ [m] ∧
      m ∉ gw.modules) := by
  by_cases h1 : env.loadOk entry = true
  · by_cases h2 : env.initOk entry = true
    · constructor
      · intro h
        rw [Gateway_LL_AddModule, tryLoadEntry_ok env entry st h1 h2] at h
        simp at h
      · intro m hm
        rw [Gateway_LL_AddModule, tryLoadEntry_ok env entry st h1 h2] at hm ⊢
        simp at hm
        subst hm
        refine ⟨rfl, fun hmem => ?_⟩
        exact absurd (hfresh _ hmem) (by simp)
    · rw [Gateway_LL_AddModule,
        tryLoadEntry_fail env entry st (fun hc => h2 hc.2)]
      exact ⟨fun _ => rfl, fun m hm => by simp at hm⟩
  · rw [Gateway_LL_AddModule,
      tryLoadEntry_fail env entry st (fun hc => h1 hc.1)]
    exact ⟨fun _ => rfl, fun m hm => by simp at hm⟩

/-- C6 witness: adding a concrete entry to a gateway that already owns one
instance appends exactly that new instance, instantiating the theorem. -/
theorem gateway_addModule_frame_witness :
    (Gateway_LL_AddModule ⟨fun _ => true, fun _ => true⟩
        ⟨[⟨0, ⟨some "A", "libA.so", 0⟩⟩], []⟩
        ⟨["libA.so"], [⟨0, ⟨some "A", "libA.so", 0⟩⟩], 1⟩
        ⟨some "B", "libB.so", 1⟩).2.1.modules =
      [⟨0, ⟨some "A", "libA.so", 0⟩⟩] ++ [⟨1, ⟨some "B", "libB.so", 1⟩⟩] ∧
    (⟨1, ⟨some "B", "libB.so", 1⟩⟩ : MODULE_HANDLE) ∉
      [(⟨0, ⟨some "A", "libA.so", 0⟩⟩ : MODULE_HANDLE)] :=
  (gateway_addModule_frame ⟨fun _ => true, fun _ => true⟩
      ⟨[⟨0, ⟨some "A", "libA.so", 0⟩⟩], []⟩
      ⟨["libA.so"], [⟨0, ⟨some "A", "libA.so", 0⟩⟩], 1⟩
      ⟨some "B", "libB.so", 1⟩ (by decide)).2
    ⟨1, ⟨some "B", "libB.so", 1⟩⟩ rfl

lemma registeredFor_append (l₁ l₂ : List EventRegistration)
    (ev : GATEWAY_EVENT) :
    registeredFor (l₁ ++ l₂) ev = registeredFor l₁ ev ++ registeredFor l₂ ev := by
  induction l₁ with
  | nil => rfl
  | cons r rest ih => simp [registeredFor, ih]

lemma fireEvent_eq_map (regs : List EventRegistration) (ev : GATEWAY_EVENT) :
    fireEvent regs ev =
      (registeredFor regs ev).map (fun cb => ⟨cb, ev, none⟩) := by
  induction regs with
  | nil => rfl
  | cons r rest ih =>
      by_cases he : r.1 = ev
      · simp [fireEvent, registeredFor, he, ih]
      · simp [fireEvent, registeredFor, he, ih]

/-- C7: for a gateway whose callback table holds exactly two registrations for
`GATEWAY_CREATED` (added through `Gateway_AddEventCallback`, in this order), a
successful `Gateway_LL_Create` performs exactly the two corresponding callback
invocations, in registration order, once each, as part of the call itself —
the invocation list is produced by `Create` before it returns, on the calling
thread, not on any separate notification thread. -/
theorem gateway_created_callbacks_order (env : LoaderEnv)
    (regs0 : List EventRegistration) (cb1 cb2 : Nat)
    (properties : GATEWAY_PROPERTIES) (gw : GATEWAY_HANDLE)
    (st : ResourceState) (tr : List CallbackInvocation)
    (hnone : registeredFor regs0 .GATEWAY_CREATED = [])
    (hcreate : Gateway_LL_Create env
        (Gateway_AddEventCallback
          (Gateway_AddEventCallback regs0 .GATEWAY_CREATED cb1)
          .GATEWAY_CREATED cb2) properties = (some gw, st, tr)) :
    tr = [⟨cb1, .GATEWAY_CREATED, none⟩, ⟨cb2, .GATEWAY_CREATED, none⟩] := by
  unfold Gateway_LL_Create at hcreate
  rcases hload : loadAll env properties.gateway_properties_entries []
      { loadedLibs := [], activeSubs := [], nextId := 0 } with ⟨o, st1⟩
  rw [hload] at hcreate
  cases o with
  | none => simp at hcreate
  | some mods =>
      have htr : tr = fireEvent
          (Gateway_AddEventCallback
            (Gateway_AddEventCallback regs0 .GATEWAY_CREATED cb1)
            .GATEWAY_CREATED cb2) .GATEWAY_CREATED := by
        have := congrArg (fun p => p.2.2) hcreate
        simpa using this.symm
      rw [htr, fireEvent_eq_map, Gateway_AddEventCallback,
        Gateway_AddEventCallback, registeredFor_append, registeredFor_append,
        hnone]
      simp [registeredFor]

/-- C7 witness: two callbacks (tokens 1 and 2) registered for
`GATEWAY_CREATED` on top of an unrelated `GATEWAY_DESTROYED` registration, a
one-entry properties list that loads, instantiating the theorem. -/
theorem gateway_created_callbacks_order_witness :
    fireEvent (Gateway_AddEventCallback (Gateway_AddEventCallback
        [(GATEWAY_EVENT.GATEWAY_DESTROYED, 9)] .GATEWAY_CREATED 1)
        .GATEWAY_CREATED 2) .GATEWAY_CREATED =
      [⟨1, .GATEWAY_CREATED, none⟩, ⟨2, .GATEWAY_CREATED, none⟩] :=
  gateway_created_callbacks_order ⟨fun _ => true, fun _ => true⟩
    [(GATEWAY_EVENT.GATEWAY_DESTROYED, 9)] 1 2 ⟨[⟨some "A", "libA.so", 0⟩]⟩
    ⟨[⟨0, ⟨some "A", "libA.so", 0⟩⟩],
      Gateway_AddEventCallback (Gateway_AddEventCallback
        [(GATEWAY_EVENT.GATEWAY_DESTROYED, 9)] .GATEWAY_CREATED 1)
        .GATEWAY_CREATED 2⟩
    ⟨["libA.so"], [⟨0, ⟨some "A", "libA.so", 0⟩⟩], 1⟩
    (fireEvent (Gateway_AddEventCallback (Gateway_AddEventCallback
        [(GATEWAY_EVENT.GATEWAY_DESTROYED, 9)] .GATEWAY_CREATED 1)
        .GATEWAY_CREATED 2) .GATEWAY_CREATED)
    (by decide) rfl

/-- Modelled from the spec: the externally observable steps of gateway
teardown (§3 destruction order, §4.4): per module — unsubscribe from the bus,
stop the host's worker, call the module's own destroy, unload its shared
library; plus firing a registered callback and destroying the bus. -/
inductive DestroyAction where
  | fireCallback (cb : Nat) (ev : GATEWAY_EVENT) (ctx : Option Nat)
  | unsubscribeModule (m : MODULE_HANDLE)
  | stopWorker (m : MODULE_HANDLE)
  | destroyModule (m : MODULE_HANDLE)
  | unloadLibrary (path : String)
  | destroyBus
  deriving DecidableEq

/-- Modelled from the spec: removing one module instance performs, in order,
unsubscribe, stop the worker, call the module's destroy, unload the library
(§4.4 RemoveModule, §3). -/
def removeModuleActions (m : MODULE_HANDLE) : List DestroyAction :=
  [.unsubscribeModule m, .stopWorker m, .destroyModule m,
   .unloadLibrary m.entry.module_path]

/-- Modelled from the spec: removing every module instance of the ordered
collection, the most recently inserted first (§4.4 Destroy: reverse insertion
order). -/
def removeAllActions : List MODULE_HANDLE → List DestroyAction
  | [] => []
  | m :: rest => removeAllActions rest ++ removeModuleActions m

/-- Mirror of `Gateway_LL_Destroy` (gateway_ll.h line 81); behaviour modelled
from the spec §4.4: fire `GATEWAY_DESTROYED` first (while the bus and modules
are still alive), then remove every module instance in reverse insertion
order, then destroy the bus.  The value is the ordered list of observable
actions the call performs. -/
def Gateway_LL_Destroy (gw : GATEWAY_HANDLE) : List DestroyAction :=
  (fireEvent gw.callbacks .GATEWAY_DESTROYED).map
    (fun i => .fireCallback i.callback i.event i.context)
  ++ removeAllActions gw.modules
  ++ [.destroyBus]

lemma removeAllActions_eq (mods : List MODULE_HANDLE) :
    removeAllActions mods = mods.reverse.flatMap removeModuleActions := by
  induction mods with
  | nil => rfl
  | cons m rest ih => simp [removeAllActions, ih]

/-- C8: `Gateway_LL_Destroy` performs exactly, and in this order: one
`GATEWAY_DESTROYED` invocation per registered callback (registration order,
NULL context) before any module or bus is touched, then the four teardown
steps of every module instance in reverse insertion order, and only then the
bus destruction, as the final action. -/
theorem gateway_destroy_order (gw : GATEWAY_HANDLE) :
    Gateway_LL_Destroy gw =
      (registeredFor gw.callbacks .GATEWAY_DESTROYED).map
        (fun cb => DestroyAction.fireCallback cb .GATEWAY_DESTROYED none)
      ++ gw.modules.reverse.flatMap removeModuleActions
      ++ [DestroyAction.destroyBus] := by
  rw [Gateway_LL_Destroy, fireEvent_eq_map, removeAllActions_eq]
  simp

/-- Modelled from the spec: the error taxonomy surfaced to callers for
contract violations (§7): operating on a handle not owned by the caller's
gateway. -/
inductive GATEWAY_ERROR where
  | OwnershipError
  deriving DecidableEq

/-- Mirror of `Gateway_LL_RemoveModule` (gateway_ll.h line 100); behaviour
modelled from the spec §4.4/§7: removing an instance owned by this gateway
tears it down and removes it from the ordered collection; removing an
instance not owned by this gateway is an ownership violation reported to the
immediate caller, with the gateway left unchanged. -/
def Gateway_LL_RemoveModule (gw : GATEWAY_HANDLE) (m : MODULE_HANDLE) :
    Option GATEWAY_ERROR × GATEWAY_HANDLE :=
  if m ∈ gw.modules then
    (none, { gw with modules := gw.modules.erase m })
  else
    (some .OwnershipError, gw)

/-- C9: removing a handle the gateway does not own is rejected with an
ownership error and does not modify the gateway's module collection; in
particular, after a successful `Gateway_LL_RemoveModule` the same now-stale
handle is rejected on a second call, which leaves the collection unchanged.
The `Nodup` hypothesis says the gateway's instances are pairwise distinct,
which every run of the model maintains (instance identities are fresh). -/
theorem gateway_removeModule_stale_rejected (gw : GATEWAY_HANDLE)
    (m : MODULE_HANDLE) (hnd : gw.modules.Nodup) :
    (∀ k, k ∉ gw.modules →
        Gateway_LL_RemoveModule gw k = (some .OwnershipError, gw)) ∧
    (∀ gw', Gateway_LL_RemoveModule gw m = (none, gw') →
        Gateway_LL_RemoveModule gw' m = (some .OwnershipError, gw')) := by
  constructor
  · intro k hk
    simp [Gateway_LL_RemoveModule, hk]
  · intro gw' h
    by_cases hm : m ∈ gw.modules
    · simp [Gateway_LL_RemoveModule, hm] at h
      have hnm : m ∉ gw'.modules := by
        rw [← h]
        simp only []
        intro hmem
        exact absurd rfl ((hnd.mem_erase_iff.mp hmem).1)
      simp [Gateway_LL_RemoveModule, hnm]
    · simp [Gateway_LL_RemoveModule, hm] at h

/-- C9 witness: removing the only module of a concrete gateway succeeds, and
removing the same stale handle again is rejected with an ownership error and
leaves the (now empty) collection unchanged, instantiating the theorem. -/
theorem gateway_removeModule_stale_rejected_witness :
    Gateway_LL_RemoveModule ⟨[], []⟩ ⟨0, ⟨some "A", "libA.so", 0⟩⟩ =
      (some .OwnershipError, (⟨[], []⟩ : GATEWAY_HANDLE)) :=
  (gateway_removeModule_stale_rejected
      ⟨[⟨0, ⟨some "A", "libA.so", 0⟩⟩], []⟩ ⟨0, ⟨some "A", "libA.so", 0⟩⟩
      (by decide)).2
    ⟨[], []⟩ (by decide)

/-- C10: for every gateway event fired (`GATEWAY_CREATED` or
`GATEWAY_DESTROYED`), each registered `GATEWAY_CALLBACK` is invoked with the
`GATEWAY_EVENT_CTX` context argument equal to NULL (`none`), as documented at
gateway_ll.h line 61. -/
theorem gateway_event_ctx_null (regs : List EventRegistration)
    (ev : GATEWAY_EVENT) (inv : CallbackInvocation)
    (h : inv ∈ fireEvent regs ev) : inv.context = none := by
  induction regs with
  | nil => simp [fireEvent] at h
  | cons r rest ih =>
      rw [fireEvent] at h
      rcases List.mem_append.mp h with h1 | h2
      · by_cases he : r.1 = ev
        · simp [he] at h1
          rw [h1]
        · simp [he] at h1
      · exact ih h2

/-- C10 witness: a concrete registration list fired for `GATEWAY_CREATED`,
instantiating the theorem on the produced invocation. -/
theorem gateway_event_ctx_null_witness :
    (⟨5, GATEWAY_EVENT.GATEWAY_CREATED, none⟩ : CallbackInvocation).context =
      none :=
  gateway_event_ctx_null [(GATEWAY_EVENT.GATEWAY_CREATED, 5)]
    .GATEWAY_CREATED ⟨5, .GATEWAY_CREATED, none⟩ (by decide)

/-- Modelled from the spec: one operation of a run of the message bus (§4.2),
in the order in which the bus serializes them: a publish issued by a given
publishing thread, a subscribe, an unsubscribe, or one step of a module
host's worker delivering the head of that module's queue to the module's
`receive` callback (§4.3).  Modules and messages are identified by numeric
tokens. -/
inductive BusOp where
  | publish (thread : Nat) (msg : Nat)
  | subscribe (m : Nat)
  | unsubscribe (m : Nat)
  | deliver (m : Nat)
  deriving DecidableEq

/-- Modelled from the spec: the bus state (§3 Message Bus): the set of
currently subscribed module instances, a FIFO delivery queue per module, and
per module the sequence of messages its `receive` callback has been invoked
on, in invocation order. -/
structure BusState where
  subs : List Nat
  queue : Nat → List Nat
  recvd : Nat → List Nat

/-- Modelled from the spec (§4.2, §4.3): `publish` enqueues the message onto
the queue of every subscriber in the point-in-time snapshot; `subscribe`
registers a module for subsequently published messages; `unsubscribe` removes
the module from future deliveries while its already-enqueued messages remain
queued; a worker `deliver` step dequeues one message and invokes the module's
`receive` on it (a no-op on an empty queue). -/
def busStep (s : BusState) : BusOp → BusState
  | .publish _ msg =>
      { s with queue := fun k => if k ∈ s.subs then s.queue k ++ [msg] else s.queue k }
  | .subscribe m =>
      { s with subs := if m ∈ s.subs then s.subs else s.subs ++ [m] }
  | .unsubscribe m =>
      { s with subs := s.subs.erase m }
  | .deliver m =>
      match s.queue m with
      | [] => s
      | msg :: rest =>
          { s with queue := fun k => if k = m then rest else s.queue k,
                   recvd := fun k => if k = m then s.recvd k ++ [msg] else s.recvd k }

/-- Running a sequence of bus operations from a state. -/
def runBus (s : BusState) : List BusOp → BusState
  | [] => s
  | op :: rest => runBus (busStep s op) rest

/-- The bus as `create()` returns it: no subscribers, empty queues, nothing
delivered (§4.2 create). -/
def initialBus : BusState := { subs := [], queue := fun _ => [], recvd := fun _ => [] }

/-- Completing delivery: every module host's worker drains the rest of its
queue, invoking `receive` on each remaining message in queue order (§4.3; the
eventual completion of the per-module workers). -/
def flushBus (s : BusState) : BusState :=
  { s with queue := fun _ => [], recvd := fun k => s.recvd k ++ s.queue k }

/-- The subscriber set as it evolves under a sequence of bus operations
(mirrors the `subs` component of `busStep`). -/
def subsAfter : List Nat → List BusOp → List Nat
  | subs, [] => subs
  | subs, .publish _ _ :: rest => subsAfter subs rest
  | subs, .subscribe k :: rest =>
      subsAfter (if k ∈ subs then subs else subs ++ [k]) rest
  | subs, .unsubscribe k :: rest => subsAfter (subs.erase k) rest
  | subs, .deliver _ :: rest => subsAfter subs rest

/-- The messages a run enqueues onto module `m`'s queue, in enqueue order:
exactly the messages published at a step whose subscriber snapshot contains
`m` (follows the publish case of `busStep`). -/
def enqList (m : Nat) : List Nat → List BusOp → List Nat
  | _, [] => []
  | subs, .publish _ msg :: rest =>
      (if m ∈ subs then [msg] else []) ++ enqList m subs rest
  | subs, .subscribe k :: rest =>
      enqList m (if k ∈ subs then subs else subs ++ [k]) rest
  | subs, .unsubscribe k :: rest => enqList m (subs.erase k) rest
  | subs, .deliver _ :: rest => enqList m subs rest

/-- All messages published during a run, in publish order. -/
def publishedMsgs : List BusOp → List Nat
  | [] => []
  | .publish _ msg :: rest => msg :: publishedMsgs rest
  | .subscribe _ :: rest => publishedMsgs rest
  | .unsubscribe _ :: rest => publishedMsgs rest
  | .deliver _ :: rest => publishedMsgs rest

lemma runBus_append (l₁ l₂ : List BusOp) :
    ∀ s, runBus s (l₁ ++ l₂) = runBus (runBus s l₁) l₂ := by
  induction l₁ with
  | nil => intro s; rfl
  | cons op rest ih => intro s; simp [runBus, ih]

lemma runBus_subs (ops : List BusOp) :
    ∀ s, (runBus s ops).subs = subsAfter s.subs ops := by
  induction ops with
  | nil => intro s; rfl
  | cons op rest ih =>
      intro s
      cases op with
      | publish t msg => simp [runBus, busStep, subsAfter, ih]
      | subscribe k => simp [runBus, busStep, subsAfter, ih]
      | unsubscribe k => simp [runBus, busStep, subsAfter, ih]
      | deliver k =>
          rw [runBus, subsAfter, ih]
          congr 1
          rcases hq : s.queue k with _ | ⟨msg, rest'⟩ <;> simp [busStep, hq]

/-- The fundamental accounting invariant of the bus: what a module has
received followed by what is still queued for it is exactly the sequence of
messages enqueued to it, appended to what was there at the start. -/
lemma recvd_append_queue (ops : List BusOp) :
    ∀ s m, (runBus s ops).recvd m ++ (runBus s ops).queue m
      = s.recvd m ++ s.queue m ++ enqList m s.subs ops := by
  induction ops with
  | nil => intro s m; simp [runBus, enqList]
  | cons op rest ih =>
      intro s m
      cases op with
      | publish t msg =>
          rw [runBus, enqList, ← List.append_assoc]
          rw [ih]
          by_cases hm : m ∈ s.subs <;> simp [busStep, hm]
      | subscribe k =>
          rw [runBus, enqList, ih]
          simp [busStep]
      | unsubscribe k =>
          rw [runBus, enqList, ih]
          simp [busStep]
      | deliver k =>
          rw [runBus, enqList]
          rcases hq : s.queue k with _ | ⟨msg, rest'⟩
          · rw [show busStep s (.deliver k) = s by simp [busStep, hq]]
            exact ih s m
          · rw [ih]
            by_cases hmk : m = k
            · subst hmk
              simp [busStep, hq]
            · simp [busStep, hq, hmk]

lemma enqList_sublist (m : Nat) (ops : List BusOp) :
    ∀ subs, (enqList m subs ops).Sublist (publishedMsgs ops) := by
  induction ops with
  | nil => intro subs; simp [enqList, publishedMsgs]
  | cons op rest ih =>
      intro subs
      cases op with
      | publish t msg =>
          rw [enqList, publishedMsgs]
          by_cases hm : m ∈ subs
          · simpa [hm] using (ih subs).cons₂ msg
          · simpa [hm] using (ih subs).cons msg
      | subscribe k => rw [enqList, publishedMsgs]; exact ih _
      | unsubscribe k => rw [enqList, publishedMsgs]; exact ih _
      | deliver k => rw [enqList, publishedMsgs]; exact ih _

lemma enqList_append (m : Nat) (l₁ l₂ : List BusOp) :
    ∀ subs, enqList m subs (l₁ ++ l₂)
      = enqList m subs l₁ ++ enqList m (subsAfter subs l₁) l₂ := by
  induction l₁ with
  | nil => intro subs; simp [enqList, subsAfter]
  | cons op rest ih =>
      intro subs
      cases op with
      | publish t msg => simp [enqList, subsAfter, ih]
      | subscribe k => simp [enqList, subsAfter, ih]
      | unsubscribe k => simp [enqList, subsAfter, ih]
      | deliver k => simp [enqList, subsAfter, ih]

lemma publishedMsgs_append (l₁ l₂ : List BusOp) :
    publishedMsgs (l₁ ++ l₂) = publishedMsgs l₁ ++ publishedMsgs l₂ := by
  induction l₁ with
  | nil => rfl
  | cons op rest ih => cases op <;> simp [publishedMsgs, ih]

/-- A module that is not subscribed and is never subscribed during the run
gets nothing enqueued. -/
lemma enqList_eq_nil (m : Nat) (ops : List BusOp) :
    ∀ subs, m ∉ subs → (∀ op ∈ ops, op ≠ BusOp.subscribe m) →
      enqList m subs ops = [] := by
  induction ops with
  | nil => intro subs _ _; rfl
  | cons op rest ih =>
      intro subs hm hno
      have hrest : ∀ op ∈ rest, op ≠ BusOp.subscribe m :=
        fun x hx => hno x (List.mem_cons_of_mem _ hx)
      cases op with
      | publish t msg => simp [enqList, hm, ih _ hm hrest]
      | subscribe k =>
          have hk : k ≠ m := by
            intro hkm
            exact hno _ (List.mem_cons_self _ _) (by rw [hkm])
          rw [enqList]
          apply ih _ _ hrest
          by_cases hks : k ∈ subs
          · simpa [hks] using hm
          · simp [hks, hm, Ne.symm hk]
      | unsubscribe k =>
          rw [enqList]
          exact ih _ (fun hc => hm (List.mem_of_mem_erase hc)) hrest
      | deliver k => rw [enqList]; exact ih _ hm hrest

/-- The subscriber set stays duplicate-free along any run. -/
lemma subsAfter_nodup (ops : List BusOp) :
    ∀ subs : List Nat, subs.Nodup → (subsAfter subs ops).Nodup := by
  induction ops with
  | nil => intro subs h; exact h
  | cons op rest ih =>
      intro subs h
      cases op with
      | publish t msg => exact ih _ h
      | subscribe k =>
          rw [subsAfter]
          by_cases hk : k ∈ subs
          · simpa [hk] using ih _ h
          · refine ih _ ?_
            simp [hk, List.nodup_append, h]
      | unsubscribe k => exact ih _ (h.erase k)
      | deliver k => exact ih _ h

/-- Relative order of two elements is preserved when passing to a sublist of a
duplicate-free list. -/
lemma indexOf_lt_of_sublist {l' l : List Nat} (h : l'.Sublist l) :
    ∀ {a b : Nat}, l.Nodup → a ∈ l' → b ∈ l' →
      l.indexOf a < l.indexOf b → l'.indexOf a < l'.indexOf b := by
  induction h with
  | slnil => intro a b _ ha _ _; cases ha
  | @cons l₁ l₂ x h ih =>
      intro a b hnd ha hb hab
      have hxl : x ∉ l₂ := (List.nodup_cons.mp hnd).1
      have hnd' : l₂.Nodup := (List.nodup_cons.mp hnd).2
      have hax : a ≠ x := fun hc => hxl (hc ▸ h.subset ha)
      have hbx : b ≠ x := fun hc => hxl (hc ▸ h.subset hb)
      apply ih hnd' ha hb
      rw [List.indexOf_cons_ne _ (Ne.symm hax),
          List.indexOf_cons_ne _ (Ne.symm hbx)] at hab
      exact Nat.lt_of_succ_lt_succ hab
  | @cons₂ l₁ l₂ x h ih =>
      intro a b hnd ha hb hab
      have hnd' : l₂.Nodup := (List.nodup_cons.mp hnd).2
      by_cases hax : a = x
      · subst hax
        have hba : b ≠ a := by
          intro hc
          subst hc
          exact Nat.lt_irrefl _ hab
        rw [List.indexOf_cons_self, List.indexOf_cons_ne _ (Ne.symm hba)]
        exact Nat.succ_pos _
      · have hbx : b ≠ x := by
          intro hc
          subst hc
          rw [List.indexOf_cons_self] at hab
          exact Nat.not_lt_zero _ hab
        have ha' : a ∈ l₁ := by
          rcases List.mem_cons.mp ha with h1 | h1
          · exact absurd h1 hax
          · exact h1
        have hb' : b ∈ l₁ := by
          rcases List.mem_cons.mp hb with h1 | h1
          · exact absurd h1 hbx
          · exact h1
        rw [List.indexOf_cons_ne _ (Ne.symm hax),
            List.indexOf_cons_ne _ (Ne.symm hbx)] at hab
        rw [List.indexOf_cons_ne _ (Ne.symm hax),
            List.indexOf_cons_ne _ (Ne.symm hbx)]
        exact Nat.succ_lt_succ (ih hnd' ha' hb' (Nat.lt_of_succ_lt_succ hab))

/-- In a duplicate-free list split around two marked elements, the first comes
strictly before the second. -/
lemma indexOf_lt_of_split (l₁ l₂ l₃ : List Nat) (a b : Nat)
    (hnd : (l₁ ++ (a :: (l₂ ++ b :: l₃))).Nodup) :
    (l₁ ++ (a :: (l₂ ++ b :: l₃))).indexOf a
      < (l₁ ++ (a :: (l₂ ++ b :: l₃))).indexOf b := by
  have hdisj := (List.nodup_append.mp hnd).2.2
  have hnd2 : (a :: (l₂ ++ b :: l₃)).Nodup := (List.nodup_append.mp hnd).2.1
  have hmem_a : a ∈ a :: (l₂ ++ b :: l₃) := List.mem_cons_self _ _
  have hmem_b : b ∈ a :: (l₂ ++ b :: l₃) :=
    List.mem_cons_of_mem _ (List.mem_append_right _ (List.mem_cons_self _ _))
  have hna : a ∉ l₁ := fun hc => hdisj hc hmem_a
  have hnb : b ∉ l₁ := fun hc => hdisj hc hmem_b
  have hba : b ≠ a := by
    intro hc
    subst hc
    exact (List.nodup_cons.mp hnd2).1
      (List.mem_append_right _ (List.mem_cons_self _ _))
  rw [List.indexOf_append_of_not_mem hna, List.indexOf_append_of_not_mem hnb,
    List.indexOf_cons_self, List.indexOf_cons_ne _ (Ne.symm hba)]
  exact Nat.add_lt_add_left (Nat.succ_pos _) _

/-- C3: for any two messages A and B published on the same publishing thread
with A before B during a run, every subscriber whose `receive` is invoked on
both receives A strictly before B.  (The serialized run covers every
interleaving of the publishing threads, so in particular the per-thread
orderings; no cross-thread ordering is asserted by the claim.) -/
theorem bus_same_thread_fifo (ops p₁ p₂ p₃ : List BusOp) (t A B m : Nat)
    (hops : ops = p₁ ++ BusOp.publish t A :: p₂ ++ BusOp.publish t B :: p₃)
    (hnd : (publishedMsgs ops).Nodup)
    (hA : A ∈ (runBus initialBus ops).recvd m)
    (hB : B ∈ (runBus initialBus ops).recvd m) :
    ((runBus initialBus ops).recvd m).indexOf A
      < ((runBus initialBus ops).recvd m).indexOf B := by
  have hacc := recvd_append_queue ops initialBus m
  rw [show initialBus.recvd m = [] from rfl,
      show initialBus.queue m = [] from rfl] at hacc
  simp only [List.nil_append] at hacc
  have hsub := enqList_sublist m ops initialBus.subs
  have hAe : A ∈ enqList m initialBus.subs ops := by
    rw [← hacc]
    exact List.mem_append_left _ hA
  have hBe : B ∈ enqList m initialBus.subs ops := by
    rw [← hacc]
    exact List.mem_append_left _ hB
  have hsplit : publishedMsgs ops
      = publishedMsgs p₁
          ++ (A :: (publishedMsgs p₂ ++ B :: publishedMsgs p₃)) := by
    subst hops
    simp [publishedMsgs_append, publishedMsgs]
  have hPP : (publishedMsgs ops).indexOf A < (publishedMsgs ops).indexOf B := by
    rw [hsplit]
    rw [hsplit] at hnd
    exact indexOf_lt_of_split _ _ _ _ _ hnd
  have hE : (enqList m initialBus.subs ops).indexOf A
      < (enqList m initialBus.subs ops).indexOf B :=
    indexOf_lt_of_sublist hsub hnd hAe hBe hPP
  rw [← hacc] at hE
  rwa [List.indexOf_append_of_mem hA, List.indexOf_append_of_mem hB] at hE

/-- C3 witness: one subscriber, two messages published in order by thread 0
and both delivered; the receive order matches the publish order. -/
theorem bus_same_thread_fifo_witness :
    ((runBus initialBus [BusOp.subscribe 0, .publish 0 1, .publish 0 2,
        .deliver 0, .deliver 0]).recvd 0).indexOf 1
      < ((runBus initialBus [BusOp.subscribe 0, .publish 0 1, .publish 0 2,
        .deliver 0, .deliver 0]).recvd 0).indexOf 2 :=
  bus_same_thread_fifo
    [BusOp.subscribe 0, .publish 0 1, .publish 0 2, .deliver 0, .deliver 0]
    [BusOp.subscribe 0] [] [BusOp.deliver 0, .deliver 0] 0 1 2 0
    rfl (by decide) (by decide) (by decide)

/-- C4: a message published while N modules are subscribed is delivered (once
the workers drain their queues) to exactly the modules that were subscribed at
publish time: membership in the delivered sequence is equivalent to membership
in the publish-time subscriber snapshot.  Modules that subscribe only
mid-delivery (inside `post`) are not delivered to. -/
theorem bus_publish_snapshot_delivery (pre post : List BusOp) (t msg m : Nat)
    (hfresh₁ : msg ∉ publishedMsgs pre) (hfresh₂ : msg ∉ publishedMsgs post) :
    (msg ∈ (flushBus (runBus initialBus
        (pre ++ BusOp.publish t msg :: post))).recvd m
      ↔ m ∈ (runBus initialBus pre).subs) := by
  have hacc := recvd_append_queue (pre ++ BusOp.publish t msg :: post)
    initialBus m
  rw [show initialBus.recvd m = [] from rfl,
      show initialBus.queue m = [] from rfl] at hacc
  simp only [List.nil_append] at hacc
  have hflush : (flushBus (runBus initialBus
      (pre ++ BusOp.publish t msg :: post))).recvd m
      = (runBus initialBus (pre ++ BusOp.publish t msg :: post)).recvd m
        ++ (runBus initialBus (pre ++ BusOp.publish t msg :: post)).queue m :=
    rfl
  rw [hflush, hacc, enqList_append]
  rw [show enqList m (subsAfter initialBus.subs pre)
        (BusOp.publish t msg :: post)
      = (if m ∈ subsAfter initialBus.subs pre then [msg] else [])
        ++ enqList m (subsAfter initialBus.subs pre) post from rfl]
  rw [← runBus_subs pre initialBus]
  constructor
  · intro hmem
    rcases List.mem_append.mp hmem with h1 | h2
    · exact absurd ((enqList_sublist m pre _).subset h1) hfresh₁
    · rcases List.mem_append.mp h2 with h3 | h4
      · by_cases hm : m ∈ (runBus initialBus pre).subs
        · exact hm
        · simp [hm] at h3
      · exact absurd ((enqList_sublist m post _).subset h4) hfresh₂
  · intro hm
    apply List.mem_append_right
    apply List.mem_append_left
    simp [hm]

/-- C4 witness: module 0 subscribed at publish time receives message 5 after
the flush; the equivalence is instantiated concretely. -/
theorem bus_publish_snapshot_delivery_witness :
    (5 ∈ (flushBus (runBus initialBus
        ([BusOp.subscribe 0] ++ BusOp.publish 0 5 :: []))).recvd 0
      ↔ 0 ∈ (runBus initialBus [BusOp.subscribe 0]).subs) :=
  bus_publish_snapshot_delivery [BusOp.subscribe 0] [] 0 5 0
    (by decide) (by decide)

/-- C5: a module unsubscribed mid-run still receives every message already
enqueued for it before the unsubscribe once the workers drain (never silently
dropped), and no message published after the unsubscribe is delivered to it
(provided it is not re-subscribed). -/
theorem bus_unsubscribe_semantics (pre post : List BusOp) (m : Nat)
    (hnosub : ∀ op ∈ post, op ≠ BusOp.subscribe m) :
    (∀ msg ∈ (runBus initialBus pre).queue m,
        msg ∈ (flushBus (runBus initialBus
          (pre ++ BusOp.unsubscribe m :: post))).recvd m) ∧
    (∀ t msg, BusOp.publish t msg ∈ post → msg ∉ publishedMsgs pre →
        msg ∉ (flushBus (runBus initialBus
          (pre ++ BusOp.unsubscribe m :: post))).recvd m) := by
  have hflush : (flushBus (runBus initialBus
      (pre ++ BusOp.unsubscribe m :: post))).recvd m
      = (runBus initialBus pre).recvd m ++ (runBus initialBus pre).queue m := by
    have h1 : (flushBus (runBus initialBus
        (pre ++ BusOp.unsubscribe m :: post))).recvd m
        = (runBus initialBus (pre ++ BusOp.unsubscribe m :: post)).recvd m
          ++ (runBus initialBus (pre ++ BusOp.unsubscribe m :: post)).queue m :=
      rfl
    rw [h1, runBus_append, recvd_append_queue]
    have hnodup : (runBus initialBus pre).subs.Nodup := by
      rw [runBus_subs]
      exact subsAfter_nodup pre [] List.nodup_nil
    have hnm : m ∉ (runBus initialBus pre).subs.erase m := hnodup.not_mem_erase
    have hzero : enqList m (runBus initialBus pre).subs
        (BusOp.unsubscribe m :: post) = [] := by
      rw [enqList]
      exact enqList_eq_nil m post _ hnm hnosub
    rw [hzero, List.append_nil]
  constructor
  · intro msg hmsg
    rw [hflush]
    exact List.mem_append_right _ hmsg
  · intro t msg _ hfresh hc
    rw [hflush] at hc
    have hacc := recvd_append_queue pre initialBus m
    rw [show initialBus.recvd m = [] from rfl,
        show initialBus.queue m = [] from rfl] at hacc
    simp only [List.nil_append] at hacc
    rw [hacc] at hc
    exact hfresh ((enqList_sublist m pre _).subset hc)

/-- C5 witness: message 7 enqueued before the unsubscribe is still delivered
to module 0 after the flush; message 8 published after the unsubscribe is
not. -/
theorem bus_unsubscribe_semantics_witness :
    7 ∈ (flushBus (runBus initialBus ([BusOp.subscribe 0, .publish 0 7]
        ++ BusOp.unsubscribe 0 :: [BusOp.publish 0 8]))).recvd 0 ∧
    8 ∉ (flushBus (runBus initialBus ([BusOp.subscribe 0, .publish 0 7]
        ++ BusOp.unsubscribe 0 :: [BusOp.publish 0 8]))).recvd 0 :=
  ⟨(bus_unsubscribe_semantics [BusOp.subscribe 0, .publish 0 7]
      [BusOp.publish 0 8] 0 (by decide)).1 7 (by decide),
   (bus_unsubscribe_semantics [BusOp.subscribe 0, .publish 0 7]
      [BusOp.publish 0 8] 0 (by decide)).2 0 8 (by decide) (by decide)⟩
